import Mathlib

/-!
Shallow embedding of `Labfiles/06-translator-sdk/Python/translate-text/translate.py`.

The script's `main` function is interactive: it fetches the supported-language
catalog, prints a three-line banner, loops reading a target-language code until
a valid one is entered, then loops reading text lines, translating each one
until the user enters the sentinel `quit`.

We model the console/network behaviour as a pure function of
  - the outcome of constructing the client and of each remote call
    (`Except String …`, an `error` standing for a raised exception), and
  - the list of lines the user types (`input()` reads the next line; an
    exhausted list models end-of-file, where `input()` raises `EOFError`).
The observable behaviour is a trace of events: lines printed to stdout and
translate calls issued to the service, plus an optional uncaught exception
that the top-level `except` boundary stringifies and prints.
-/

namespace TranslateApp

/-- `translation.detected_language` in the Azure response model:
we only need its `language` field (the detected source-language code). -/
structure DetectedLanguage where
  language : String
deriving DecidableEq, Repr

/-- One entry of `translation.translations`: a target code `to` and the
translated `text`. -/
structure Translation where
  «to» : String
  text : String
deriving DecidableEq, Repr

/-- One item of the sequence returned by `client.translate`, carrying the
detected source language and the per-target translations. -/
structure TranslatedTextItem where
  detected_language : DetectedLanguage
  translations : List Translation
deriving DecidableEq, Repr

/-- The abstract service client. `get_supported_languages` yields the catalog
(an association list of code ↦ display name, modelling the `translation`
dictionary); `translate` takes the list of input texts (an `InputTextItem` is
just its `text` string) and the list of target-language codes. An `error`
models the call raising an exception, carrying its string form. -/
structure TextTranslationClient where
  get_supported_languages : Except String (List (String × String))
  translate : List String → List String → Except String (List TranslatedTextItem)

/-- Observable events of a session: a line printed to stdout, or a translate
call issued to the remote service (with its `body` texts and `to_language`). -/
inductive Event where
  | printed (line : String)
  | translateCall (texts : List String) (to_language : List String)
deriving DecidableEq, Repr

/-- Python's `str.lower()` as used in the sentinel check `inputText.lower()`:
lower-case every character. -/
def strLower (s : String) : String := ⟨s.data.map Char.toLower⟩

/-- The prompt string passed to `input()` in the translation loop
(line 76 of `translate.py`). -/
def promptStr : String := "Enter text to translate (or 'quit' to exit): "

/-- Suffix of the rejection notice of line 66:
`print("{} is not a supported language.".format(targetLanguage))`. -/
def rejSuffix : String := " is not a supported language."

/-- The documentation pointer printed at line 50. -/
def docLine : String :=
  "(See https://learn.microsoft.com/azure/ai-services/translator/language-support#translation)"

/-- The instruction printed at line 51. -/
def instrLine : String :=
  "Enter a target language code for translation (for example, 'en'):"

/-- The count line printed at line 49:
`print("{} languages supported.".format(len(languagesResponse.translation)))`. -/
def countLine (n : Nat) : String := toString n ++ " languages supported."

/-- The f-string of line 102:
`f"'{inputText}' was translated from {sourceLanguage.language} to {translated_text.to} as '{translated_text.text}'."`. -/
def resultLine (inputText srcLang toLang translatedText : String) : String :=
  "'" ++ inputText ++ "' was translated from " ++ srcLang ++ " to " ++ toLang ++
    " as '" ++ translatedText ++ "'."

/-- Lines 92–102: take the first result if the response is non-empty
(`translationResponse[0] if translationResponse else None`), and if present,
print one result line per entry of its `translations` list; an empty response
prints nothing. -/
def displayTranslation (inputText : String) (resp : List TranslatedTextItem) :
    List Event :=
  match resp with
  | [] => []
  | translation :: _ =>
    translation.translations.map fun t =>
      Event.printed (resultLine inputText translation.detected_language.language t.«to» t.text)

/-- Lines 71–102, the interactive translation loop.  `inputText` is the value
of the `inputText` variable at the top of the `while` (initially `""`);
`inputs` are the remaining user input lines.  Each iteration: re-check
`inputText.lower() != "quit"`; prompt and read a line (end-of-file raises
`EOFError`); if the line is not exactly `"quit"`, issue the translate call with
a single-item body and the single target code, propagate any exception, else
display the response; loop with the new line as `inputText`. -/
def transLoop (translate : List String → List String → Except String (List TranslatedTextItem))
    (targetLanguage : String) (inputs : List String) (inputText : String) :
    List Event × Option String :=
  if strLower inputText ≠ "quit" then
    match inputs with
    | [] => ([Event.printed promptStr], some "EOF when reading a line")
    | line :: rest =>
      if line ≠ "quit" then
        match translate [line] [targetLanguage] with
        | .error e =>
          ([Event.printed promptStr, Event.translateCall [line] [targetLanguage]], some e)
        | .ok resp =>
          let next := transLoop translate targetLanguage rest line
          (Event.printed promptStr :: Event.translateCall [line] [targetLanguage] ::
            (displayTranslation line resp ++ next.1), next.2)
      else
        let next := transLoop translate targetLanguage rest line
        (Event.printed promptStr :: next.1, next.2)
  else ([], none)

/-- Lines 54–66, the language-selection loop: read a line (no prompt string),
accept it if it is a key of the catalog (`targetLanguage in
languagesResponse.translation.keys()`), otherwise print the rejection notice
and retry.  Returns the events printed, and either the uncaught `EOFError` or
the accepted code together with the unconsumed input lines. -/
def selectLanguage (catalog : List (String × String)) (inputs : List String) :
    List Event × Except String (String × List String) :=
  match inputs with
  | [] => ([], .error "EOF when reading a line")
  | targetLanguage :: rest =>
    if (catalog.map Prod.fst).contains targetLanguage then
      ([], .ok (targetLanguage, rest))
    else
      let next := selectLanguage catalog rest
      (Event.printed (targetLanguage ++ rejSuffix) :: next.1, next.2)

/-- The three startup lines of lines 49–51, printed once after the catalog is
fetched. -/
def bannerEvents (catalog : List (String × String)) : List Event :=
  [Event.printed (countLine catalog.length), Event.printed docLine,
   Event.printed instrLine]

/-- The body of the `try` block of `main` (lines 26–102), given the client:
fetch the catalog (propagating an exception), print the banner, run the
selection loop, then the translation loop with `inputText = ""`. -/
def mainBody (client : TextTranslationClient) (inputs : List String) :
    List Event × Option String :=
  match client.get_supported_languages with
  | .error e => ([], some e)
  | .ok catalog =>
    match selectLanguage catalog inputs with
    | (evs, .error e) => (bannerEvents catalog ++ evs, some e)
    | (evs, .ok (targetLanguage, rest)) =>
      let loop := transLoop client.translate targetLanguage rest ""
      (bannerEvents catalog ++ evs ++ loop.1, loop.2)

/-- Lines 107–110: the single `except Exception as ex: print(ex)` boundary
wrapping the whole of `main`: a normal finish leaves the trace as is, an
uncaught exception is stringified and printed as the session's last line. -/
def topBoundary : List Event × Option String → List Event
  | (evs, none) => evs
  | (evs, some e) => evs ++ [Event.printed e]

/-- The whole of `main`: client construction may itself raise (missing key,
bad credential), modelled by the `Except` argument; otherwise run the body
under the top-level boundary. -/
def mainApp (clientE : Except String TextTranslationClient) (inputs : List String) :
    List Event :=
  match clientE with
  | .error e => topBoundary ([], some e)
  | .ok client => topBoundary (mainBody client inputs)

/-- Number of translate calls issued in a trace. -/
def callCount (evs : List Event) : Nat :=
  (evs.filter fun ev => match ev with
    | Event.translateCall _ _ => true
    | _ => false).length

/-- A translate service that always answers with an empty result sequence. -/
def emptyTranslate : List String → List String → Except String (List TranslatedTextItem) :=
  fun _ _ => Except.ok []

/-- A translate service that always raises, with string form `e`. -/
def failTranslate (e : String) :
    List String → List String → Except String (List TranslatedTextItem) :=
  fun _ _ => Except.error e

/-- The `i`-th character of a string counted from its end (`0` is the last
character); used to tell the program's fixed output lines apart. -/
def revNth (s : String) (i : Nat) : Option Char := s.data.reverse[i]?

/-- A translate service that answers every call with one result: detected
source `"en"` and the single translation `("fr", "Bonjour")`. -/
def helloTranslate : List String → List String → Except String (List TranslatedTextItem) :=
  fun _ _ => Except.ok [⟨⟨"en"⟩, [⟨"fr", "Bonjour"⟩]⟩]

/-- Everything the session prints or calls after the startup banner: the
selection loop's events followed, when a selection was made, by the
translation loop's events. -/
def sessionTail (f : List String → List String → Except String (List TranslatedTextItem))
    (catalog : List (String × String)) (inputs : List String) : List Event :=
  (selectLanguage catalog inputs).1 ++
    (match (selectLanguage catalog inputs).2 with
     | .error _ => []
     | .ok (targetLanguage, rest) => (transLoop f targetLanguage rest "").1)

/-! ### Unfolding lemmas for the translation loop -/

theorem transLoop_sentinel (f : List String → List String → Except String (List TranslatedTextItem))
    (t : String) (inputs : List String) (prev : String)
    (h : strLower prev = "quit") :
    transLoop f t inputs prev = ([], none) := by
  rw [transLoop.eq_def]
  simp [h]

theorem transLoop_nil (f : List String → List String → Except String (List TranslatedTextItem))
    (t : String) (prev : String) (h : strLower prev ≠ "quit") :
    transLoop f t [] prev =
      ([Event.printed promptStr], some "EOF when reading a line") := by
  rw [transLoop.eq_def]
  simp [h]

theorem transLoop_cons_quit (f : List String → List String → Except String (List TranslatedTextItem))
    (t : String) (rest : List String) (prev : String)
    (h : strLower prev ≠ "quit") :
    transLoop f t ("quit" :: rest) prev = ([Event.printed promptStr], none) := by
  rw [transLoop.eq_def]
  simp [h, transLoop_sentinel f t rest "quit" (by decide)]

theorem transLoop_cons_err (f : List String → List String → Except String (List TranslatedTextItem))
    (t line : String) (rest : List String) (prev : String) (e : String)
    (hprev : strLower prev ≠ "quit") (hline : line ≠ "quit")
    (hcall : f [line] [t] = Except.error e) :
    transLoop f t (line :: rest) prev =
      ([Event.printed promptStr, Event.translateCall [line] [t]], some e) := by
  rw [transLoop.eq_def]
  simp [hprev, hline, hcall]

theorem transLoop_cons_ok (f : List String → List String → Except String (List TranslatedTextItem))
    (t line : String) (rest : List String) (prev : String)
    (resp : List TranslatedTextItem)
    (hprev : strLower prev ≠ "quit") (hline : line ≠ "quit")
    (hcall : f [line] [t] = Except.ok resp) :
    transLoop f t (line :: rest) prev =
      (Event.printed promptStr :: Event.translateCall [line] [t] ::
        (displayTranslation line resp ++ (transLoop f t rest line).1),
       (transLoop f t rest line).2) := by
  rw [transLoop.eq_def]
  simp [hprev, hline, hcall]

/-! ### Lemmas about the language-selection loop -/

theorem selectLanguage_cons_mem (catalog : List (String × String)) (c : String)
    (rest : List String) (h : (catalog.map Prod.fst).contains c = true) :
    selectLanguage catalog (c :: rest) = ([], Except.ok (c, rest)) := by
  simp only [selectLanguage]
  rw [if_pos h]

theorem selectLanguage_cons_notMem (catalog : List (String × String)) (c : String)
    (rest : List String) (h : (catalog.map Prod.fst).contains c = false) :
    selectLanguage catalog (c :: rest) =
      (Event.printed (c ++ rejSuffix) :: (selectLanguage catalog rest).1,
       (selectLanguage catalog rest).2) := by
  have hnc : ¬((catalog.map Prod.fst).contains c = true) := by
    rw [h]
    exact Bool.false_ne_true
  simp only [selectLanguage]
  rw [if_neg hnc]

theorem selectLanguage_ok_key (catalog : List (String × String)) :
    ∀ (inputs : List String) (x : String) (r : List String),
    (selectLanguage catalog inputs).2 = Except.ok (x, r) →
    (catalog.map Prod.fst).contains x = true := by
  intro inputs
  induction inputs with
  | nil => intro x r h; simp [selectLanguage] at h
  | cons line rest ih =>
    intro x r h
    cases hc : (catalog.map Prod.fst).contains line with
    | true =>
      rw [selectLanguage_cons_mem catalog line rest hc] at h
      simp at h
      rw [← h.1]
      exact hc
    | false =>
      rw [selectLanguage_cons_notMem catalog line rest hc] at h
      exact ih x r h

/-! ### The claims -/

/-- C1, counterexample: at the translation prompt, the input `"QUIT"` (a
case variant of the sentinel) DOES issue a translate call with `"QUIT"` as its
input text before the loop terminates, contradicting the claim that no
translate call is issued for any input equal to `"quit"` up to letter case. -/
theorem C1_counterexample :
    transLoop emptyTranslate "en" ["QUIT"] "" =
      ([Event.printed promptStr, Event.translateCall ["QUIT"] ["en"]], none)
    ∧ callCount (transLoop emptyTranslate "en" ["QUIT"] "").1 = 1 := by
  decide

/-- C1, amended: every input equal to `"quit"` up to letter case makes the
loop terminate normally right after that iteration; the exact lowercase
`"quit"` issues no translate call, but any other casing issues a translate
call for that input (and, when the call returns a response, displays it)
before terminating. -/
theorem C1_sentinel_terminates
    (f : List String → List String → Except String (List TranslatedTextItem))
    (t line prev : String) (rest : List String) (resp : List TranslatedTextItem)
    (hprev : strLower prev ≠ "quit") (hline : strLower line = "quit")
    (hcall : line ≠ "quit" → f [line] [t] = Except.ok resp) :
    transLoop f t (line :: rest) prev =
      (if line = "quit" then ([Event.printed promptStr], none)
       else (Event.printed promptStr :: Event.translateCall [line] [t] ::
               displayTranslation line resp, none)) := by
  by_cases hq : line = "quit"
  · rw [if_pos hq, hq]
    exact transLoop_cons_quit f t rest prev hprev
  · rw [if_neg hq, transLoop_cons_ok f t line rest prev resp hprev hq (hcall hq),
      transLoop_sentinel f t rest line hline]
    simp

/-- C1, witness: instance of the amended claim at input `"QUIT"` with an
empty-response service. -/
theorem C1_witness :
    transLoop emptyTranslate "en" ["QUIT"] "" =
      ([Event.printed promptStr, Event.translateCall ["QUIT"] ["en"]], none) := by
  have h := C1_sentinel_terminates emptyTranslate "en" "QUIT" "" [] []
    (by decide) (by decide) (fun _ => rfl)
  simpa [displayTranslation] using h

/-- C2: an input `c` that is not a key of the catalog makes the selection loop
print exactly one rejection notice (naming `c`) for it and continue with the
remaining inputs; the loop never returns `c` as the selection. -/
theorem C2_invalid_code_rejected (catalog : List (String × String)) (c : String)
    (rest : List String)
    (h : (catalog.map Prod.fst).contains c = false) :
    selectLanguage catalog (c :: rest) =
      (Event.printed (c ++ rejSuffix) :: (selectLanguage catalog rest).1,
       (selectLanguage catalog rest).2)
    ∧ ∀ (x : String) (r : List String),
        (selectLanguage catalog (c :: rest)).2 = Except.ok (x, r) → x ≠ c := by
  constructor
  · exact selectLanguage_cons_notMem catalog c rest h
  · intro x r hx hxc
    have hk := selectLanguage_ok_key catalog (c :: rest) x r hx
    rw [hxc, h] at hk
    exact Bool.false_ne_true hk

/-- C2, witness: catalog `{en}` rejects `"xx"`, prints the rejection and goes
on to accept the next input. -/
theorem C2_witness :
    ((([("en", "English")] : List (String × String)).map Prod.fst).contains "xx" = false)
    ∧ (selectLanguage [("en", "English")] ["xx", "en"] =
        (Event.printed ("xx" ++ rejSuffix) :: (selectLanguage [("en", "English")] ["en"]).1,
         (selectLanguage [("en", "English")] ["en"]).2)
       ∧ ∀ (x : String) (r : List String),
           (selectLanguage [("en", "English")] ["xx", "en"]).2 = Except.ok (x, r) →
           x ≠ "xx") :=
  ⟨by decide, C2_invalid_code_rejected [("en", "English")] "xx" ["en"] (by decide)⟩

/-- C3: an input `c` that is a key of the catalog is returned as the selection
at once, with no rejection printed and the remaining inputs untouched. -/
theorem C3_valid_code_accepted (catalog : List (String × String)) (c : String)
    (rest : List String)
    (h : (catalog.map Prod.fst).contains c = true) :
    selectLanguage catalog (c :: rest) = ([], Except.ok (c, rest)) :=
  selectLanguage_cons_mem catalog c rest h

/-- C3, witness: catalog `{en, fr}` accepts `"fr"` immediately. -/
theorem C3_witness :
    ((([("en", "English"), ("fr", "French")] : List (String × String)).map
        Prod.fst).contains "fr" = true)
    ∧ selectLanguage [("en", "English"), ("fr", "French")] ["fr", "Hello"] =
        ([], Except.ok ("fr", ["Hello"])) :=
  ⟨by decide,
   C3_valid_code_accepted [("en", "English"), ("fr", "French")] "fr" ["Hello"] (by decide)⟩

/-- C4: when the translate call answers with an empty result sequence, the
iteration prints no translation line, raises nothing, and the loop goes on
with the remaining inputs. -/
theorem C4_empty_response_skipped
    (f : List String → List String → Except String (List TranslatedTextItem))
    (t line prev : String) (rest : List String)
    (hprev : strLower prev ≠ "quit") (hline : line ≠ "quit")
    (hcall : f [line] [t] = Except.ok []) :
    transLoop f t (line :: rest) prev =
      (Event.printed promptStr :: Event.translateCall [line] [t] ::
        (transLoop f t rest line).1,
       (transLoop f t rest line).2) := by
  rw [transLoop_cons_ok f t line rest prev [] hprev hline hcall]
  simp [displayTranslation]

/-- C4, witness: an always-empty service on input `"Hello"` issues the call,
prints nothing for it and goes on to the `"quit"` iteration. -/
theorem C4_witness :
    transLoop emptyTranslate "en" ["Hello", "quit"] "" =
      (Event.printed promptStr :: Event.translateCall ["Hello"] ["en"] ::
        (transLoop emptyTranslate "en" ["quit"] "Hello").1,
       (transLoop emptyTranslate "en" ["quit"] "Hello").2) :=
  C4_empty_response_skipped emptyTranslate "en" "Hello" "" ["quit"]
    (by decide) (by decide) rfl

/-- C5: an exception from client construction or from the catalog fetch
reaches the single top-level boundary and becomes the session's sole printed
line; an exception from a translate call aborts the loop at once — the call
appears exactly once in the trace (no retry) and nothing follows it — and the
boundary appends the stringified exception as the last printed line. -/
theorem C5_exception_boundary (e : String) (inputs : List String) :
    mainApp (Except.error e) inputs = [Event.printed e]
    ∧ (∀ f, mainApp (Except.ok ⟨Except.error e, f⟩) inputs = [Event.printed e])
    ∧ (∀ (f : List String → List String → Except String (List TranslatedTextItem))
         (t line prev : String) (rest : List String),
        strLower prev ≠ "quit" → line ≠ "quit" → f [line] [t] = Except.error e →
        transLoop f t (line :: rest) prev =
          ([Event.printed promptStr, Event.translateCall [line] [t]], some e))
    ∧ (∀ evs : List Event, topBoundary (evs, some e) = evs ++ [Event.printed e]) := by
  refine ⟨rfl, fun f => rfl, ?_, fun evs => rfl⟩
  intro f t line prev rest hprev hline hcall
  exact transLoop_cons_err f t line rest prev e hprev hline hcall

/-- C5, witness: a failing construction prints only the error, and a failing
translate call ends the loop right after the single call. -/
theorem C5_witness :
    mainApp (Except.error "boom") [] = [Event.printed "boom"]
    ∧ transLoop (failTranslate "boom") "en" ["Hi"] "" =
        ([Event.printed promptStr, Event.translateCall ["Hi"] ["en"]], some "boom") :=
  ⟨(C5_exception_boundary "boom" []).1,
   (C5_exception_boundary "boom" []).2.2.1 (failTranslate "boom") "en" "Hi" "" []
     (by decide) (by decide) rfl⟩

/-- C8: when the very first input at the text prompt is `"quit"`, the loop
terminates normally with no translate call issued and nothing printed beyond
the prompt itself (in particular zero translation result lines). -/
theorem C8_first_input_quit
    (f : List String → List String → Except String (List TranslatedTextItem))
    (t : String) (rest : List String) :
    transLoop f t ("quit" :: rest) "" = ([Event.printed promptStr], none)
    ∧ callCount (transLoop f t ("quit" :: rest) "").1 = 0 := by
  have h := transLoop_cons_quit f t rest "" (by decide)
  exact ⟨h, by rw [h]; decide⟩

/-- Every event in the translation loop's trace is the prompt, a translate
call whose target list is exactly `[t]`, or a printed result line of
`resultLine`'s shape. -/
theorem transLoop_events_shape
    (f : List String → List String → Except String (List TranslatedTextItem))
    (t : String) :
    ∀ (inputs : List String) (prev : String) (ev : Event),
    ev ∈ (transLoop f t inputs prev).1 →
    ev = Event.printed promptStr
    ∨ (∃ line, ev = Event.translateCall [line] [t])
    ∨ (∃ i a b c, ev = Event.printed (resultLine i a b c)) := by
  intro inputs
  induction inputs with
  | nil =>
    intro prev ev hmem
    by_cases hp : strLower prev = "quit"
    · rw [transLoop_sentinel f t [] prev hp] at hmem
      simp at hmem
    · rw [transLoop_nil f t prev hp] at hmem
      simp at hmem
      exact Or.inl hmem
  | cons line rest ih =>
    intro prev ev hmem
    by_cases hp : strLower prev = "quit"
    · rw [transLoop_sentinel f t (line :: rest) prev hp] at hmem
      simp at hmem
    · by_cases hq : line = "quit"
      · rw [hq, transLoop_cons_quit f t rest prev hp] at hmem
        simp at hmem
        exact Or.inl hmem
      · cases hcall : f [line] [t] with
        | error e =>
          rw [transLoop_cons_err f t line rest prev e hp hq hcall] at hmem
          simp at hmem
          rcases hmem with h | h
          · exact Or.inl h
          · exact Or.inr (Or.inl ⟨line, h⟩)
        | ok resp =>
          rw [transLoop_cons_ok f t line rest prev resp hp hq hcall] at hmem
          simp at hmem
          rcases hmem with h | h | h | h
          · exact Or.inl h
          · exact Or.inr (Or.inl ⟨line, h⟩)
          · cases resp with
            | nil => simp [displayTranslation] at h
            | cons tr mrest =>
              simp [displayTranslation] at h
              obtain ⟨p, hp2, hev⟩ := h
              exact Or.inr (Or.inr
                ⟨line, tr.detected_language.language, p.«to», p.text, hev.symm⟩)
          · exact ih line ev h

/-- C6: whenever the selection loop returns a code `t`, that code is a key of
the catalog at that moment, and every translate call the subsequent
translation loop ever issues carries exactly `[t]` as its target list (the
selection is never changed). -/
theorem C6_selection_invariant (catalog : List (String × String))
    (inputs : List String) (t : String) (rest : List String)
    (hsel : (selectLanguage catalog inputs).2 = Except.ok (t, rest)) :
    (catalog.map Prod.fst).contains t = true
    ∧ ∀ (f : List String → List String → Except String (List TranslatedTextItem))
        (texts langs : List String),
        Event.translateCall texts langs ∈ (transLoop f t rest "").1 → langs = [t] := by
  refine ⟨selectLanguage_ok_key catalog inputs t rest hsel, ?_⟩
  intro f texts langs hmem
  rcases transLoop_events_shape f t rest "" (Event.translateCall texts langs) hmem with
    h | ⟨line, h⟩ | ⟨i, a, b, c, h⟩
  · exact Event.noConfusion h
  · injection h with h1 h2
  · exact Event.noConfusion h

/-- C6, witness: catalog `{fr}`, inputs `xx` then `fr`: the selection is
`"fr"`, a key of the catalog. -/
theorem C6_witness :
    (selectLanguage [("fr", "French")] ["xx", "fr", "Hello", "quit"]).2 =
        Except.ok ("fr", ["Hello", "quit"])
    ∧ (([("fr", "French")] : List (String × String)).map Prod.fst).contains "fr" = true :=
  ⟨rfl,
   (C6_selection_invariant [("fr", "French")] ["xx", "fr", "Hello", "quit"]
     "fr" ["Hello", "quit"] rfl).1⟩

/-- C7: a non-empty translate response makes the iteration print, for each
entry of the first result's translation list, exactly the line
`'<inputText>' was translated from <detectedSourceCode> to <targetCode> as
'<translatedText>'.`. -/
theorem C7_result_line_format
    (f : List String → List String → Except String (List TranslatedTextItem))
    (t line prev : String) (rest : List String)
    (tr : TranslatedTextItem) (more : List TranslatedTextItem)
    (hprev : strLower prev ≠ "quit") (hline : line ≠ "quit")
    (hcall : f [line] [t] = Except.ok (tr :: more)) :
    transLoop f t (line :: rest) prev =
      (Event.printed promptStr :: Event.translateCall [line] [t] ::
        ((tr.translations.map fun p =>
            Event.printed ("'" ++ line ++ "' was translated from " ++
              tr.detected_language.language ++ " to " ++ p.«to» ++ " as '" ++
              p.text ++ "'.")) ++ (transLoop f t rest line).1),
       (transLoop f t rest line).2) := by
  rw [transLoop_cons_ok f t line rest prev (tr :: more) hprev hline hcall]
  rfl

/-- C7, witness: target `"fr"`, input `"Hello"`, detected source `"en"`,
translated text `"Bonjour"`: the loop prints
`'Hello' was translated from en to fr as 'Bonjour'.`. -/
theorem C7_witness :
    transLoop helloTranslate "fr" ["Hello", "quit"] "" =
      ([Event.printed promptStr, Event.translateCall ["Hello"] ["fr"],
        Event.printed "'Hello' was translated from en to fr as 'Bonjour'.",
        Event.printed promptStr], none) := by
  rw [C7_result_line_format helloTranslate "fr" "Hello" "" ["quit"]
    ⟨⟨"en"⟩, [⟨"fr", "Bonjour"⟩]⟩ [] (by decide) (by decide) rfl]
  decide

/-- C10: an empty line at the text prompt is not a sentinel and is not
skipped: the iteration issues a translate call whose single input text is
`""` and displays the response exactly as for any other input. -/
theorem C10_empty_line_translated
    (f : List String → List String → Except String (List TranslatedTextItem))
    (t prev : String) (rest : List String) (resp : List TranslatedTextItem)
    (hprev : strLower prev ≠ "quit") (hcall : f [""] [t] = Except.ok resp) :
    transLoop f t ("" :: rest) prev =
      (Event.printed promptStr :: Event.translateCall [""] [t] ::
        (displayTranslation "" resp ++ (transLoop f t rest "").1),
       (transLoop f t rest "").2) :=
  transLoop_cons_ok f t "" rest prev resp hprev (by decide) hcall

/-- C10, witness: the empty input is sent to the service and its response is
displayed; the loop then goes on to the `"quit"` iteration. -/
theorem C10_witness :
    transLoop helloTranslate "fr" ["", "quit"] "" =
      (Event.printed promptStr :: Event.translateCall [""] ["fr"] ::
        (displayTranslation "" [⟨⟨"en"⟩, [⟨"fr", "Bonjour"⟩]⟩] ++
          (transLoop helloTranslate "fr" ["quit"] "").1),
       (transLoop helloTranslate "fr" ["quit"] "").2) :=
  C10_empty_line_translated helloTranslate "fr" "" ["quit"]
    [⟨⟨"en"⟩, [⟨"fr", "Bonjour"⟩]⟩] (by decide) rfl

/-! ### Telling the program's output lines apart

All reasoning is on characters counted from the end of the line, so that the
arbitrary user-controlled prefixes (the rejected code, the translated text)
drop out. -/

theorem revNth_append (a m : String) (i : Nat) (h : i < m.length) :
    revNth (a ++ m) i = revNth m i := by
  have hb : i < m.data.reverse.length := by
    rw [List.length_reverse]
    exact h
  unfold revNth
  rw [String.data_append, List.reverse_append, List.getElem?_append, if_pos hb]

theorem ne_of_revNth (i : Nat) {a b : String} (h : revNth a i ≠ revNth b i) :
    a ≠ b :=
  fun he => h (by rw [he])

theorem rej_ne_countLine (c : String) (n : Nat) : c ++ rejSuffix ≠ countLine n := by
  apply ne_of_revNth 1
  simp only [countLine]
  rw [revNth_append c rejSuffix 1 (by decide),
    revNth_append (toString n) " languages supported." 1 (by decide)]
  decide

theorem rej_ne_docLine (c : String) : c ++ rejSuffix ≠ docLine := by
  apply ne_of_revNth 0
  rw [revNth_append c rejSuffix 0 (by decide)]
  decide

theorem rej_ne_instrLine (c : String) : c ++ rejSuffix ≠ instrLine := by
  apply ne_of_revNth 0
  rw [revNth_append c rejSuffix 0 (by decide)]
  decide

theorem promptStr_ne_countLine (n : Nat) : promptStr ≠ countLine n := by
  apply ne_of_revNth 0
  simp only [countLine]
  rw [revNth_append (toString n) " languages supported." 0 (by decide)]
  decide

theorem promptStr_ne_docLine : promptStr ≠ docLine := by decide

theorem promptStr_ne_instrLine : promptStr ≠ instrLine := by decide

theorem resultLine_ne_countLine (i a b c : String) (n : Nat) :
    resultLine i a b c ≠ countLine n := by
  apply ne_of_revNth 1
  simp only [resultLine, countLine]
  rw [revNth_append ("'" ++ i ++ "' was translated from " ++ a ++ " to " ++ b ++
      " as '" ++ c) "'." 1 (by decide),
    revNth_append (toString n) " languages supported." 1 (by decide)]
  decide

theorem resultLine_ne_docLine (i a b c : String) : resultLine i a b c ≠ docLine := by
  apply ne_of_revNth 0
  simp only [resultLine]
  rw [revNth_append ("'" ++ i ++ "' was translated from " ++ a ++ " to " ++ b ++
      " as '" ++ c) "'." 0 (by decide)]
  decide

theorem resultLine_ne_instrLine (i a b c : String) :
    resultLine i a b c ≠ instrLine := by
  apply ne_of_revNth 0
  simp only [resultLine]
  rw [revNth_append ("'" ++ i ++ "' was translated from " ++ a ++ " to " ++ b ++
      " as '" ++ c) "'." 0 (by decide)]
  decide

theorem countLine_ne_docLine (n : Nat) : countLine n ≠ docLine := by
  apply ne_of_revNth 0
  simp only [countLine]
  rw [revNth_append (toString n) " languages supported." 0 (by decide)]
  decide

theorem countLine_ne_instrLine (n : Nat) : countLine n ≠ instrLine := by
  apply ne_of_revNth 0
  simp only [countLine]
  rw [revNth_append (toString n) " languages supported." 0 (by decide)]
  decide

theorem docLine_ne_instrLine : docLine ≠ instrLine := by decide

/-- Every event the selection loop prints is a rejection notice. -/
theorem selectLanguage_events_shape (catalog : List (String × String)) :
    ∀ (inputs : List String) (ev : Event),
    ev ∈ (selectLanguage catalog inputs).1 →
    ∃ c, ev = Event.printed (c ++ rejSuffix) := by
  intro inputs
  induction inputs with
  | nil => intro ev h; simp [selectLanguage] at h
  | cons line rest ih =>
    intro ev h
    cases hc : (catalog.map Prod.fst).contains line with
    | true =>
      rw [selectLanguage_cons_mem catalog line rest hc] at h
      simp at h
    | false =>
      rw [selectLanguage_cons_notMem catalog line rest hc] at h
      simp at h
      rcases h with h | h
      · exact ⟨line, h⟩
      · exact ih ev h

/-- No event after the banner is one of the three banner lines. -/
theorem sessionTail_no_banner (catalog : List (String × String))
    (f : List String → List String → Except String (List TranslatedTextItem))
    (inputs : List String) (n : Nat) :
    ∀ ev ∈ sessionTail f catalog inputs,
      ev ≠ Event.printed (countLine n) ∧ ev ≠ Event.printed docLine ∧
      ev ≠ Event.printed instrLine := by
  intro ev hev
  have hshape : (∃ c, ev = Event.printed (c ++ rejSuffix))
      ∨ ev = Event.printed promptStr
      ∨ (∃ texts langs, ev = Event.translateCall texts langs)
      ∨ (∃ i a b c, ev = Event.printed (resultLine i a b c)) := by
    unfold sessionTail at hev
    rcases List.mem_append.mp hev with h | h
    · exact Or.inl (selectLanguage_events_shape catalog inputs ev h)
    · rcases hres : (selectLanguage catalog inputs).2 with e | ⟨t, rest⟩
      · rw [hres] at h
        simp at h
      · rw [hres] at h
        rcases transLoop_events_shape f t rest "" ev h with h1 | ⟨line, h1⟩ | h1
        · exact Or.inr (Or.inl h1)
        · exact Or.inr (Or.inr (Or.inl ⟨[line], [t], h1⟩))
        · exact Or.inr (Or.inr (Or.inr h1))
  rcases hshape with ⟨c, h⟩ | h | ⟨texts, langs, h⟩ | ⟨i, a, b, c, h⟩ <;> subst h
  · refine ⟨?_, ?_, ?_⟩ <;> simp only [ne_eq, Event.printed.injEq]
    · exact rej_ne_countLine c n
    · exact rej_ne_docLine c
    · exact rej_ne_instrLine c
  · refine ⟨?_, ?_, ?_⟩ <;> simp only [ne_eq, Event.printed.injEq]
    · exact promptStr_ne_countLine n
    · exact promptStr_ne_docLine
    · exact promptStr_ne_instrLine
  · exact ⟨fun hh => Event.noConfusion hh, fun hh => Event.noConfusion hh,
      fun hh => Event.noConfusion hh⟩
  · refine ⟨?_, ?_, ?_⟩ <;> simp only [ne_eq, Event.printed.injEq]
    · exact resultLine_ne_countLine i a b c n
    · exact resultLine_ne_docLine i a b c
    · exact resultLine_ne_instrLine i a b c

/-- With a successful catalog fetch, the session's trace is the banner
followed by the selection-loop and translation-loop events. -/
theorem mainBody_ok (catalog : List (String × String))
    (f : List String → List String → Except String (List TranslatedTextItem))
    (inputs : List String) :
    (mainBody ⟨Except.ok catalog, f⟩ inputs).1 =
      bannerEvents catalog ++ sessionTail f catalog inputs := by
  rcases hsel : selectLanguage catalog inputs with ⟨evs, res⟩
  cases res with
  | error e => simp [mainBody, sessionTail, hsel]
  | ok p =>
    rcases p with ⟨t, rest⟩
    simp [mainBody, sessionTail, hsel]

/-- C9: with a fetched catalog of `N` entries, the session prints, before
anything else, exactly the three startup lines `"<N> languages supported."`,
the documentation pointer, and the instruction line, in that order; none of
the three ever appears again in the session's trace (each is printed exactly
once). -/
theorem C9_startup_banner (catalog : List (String × String))
    (f : List String → List String → Except String (List TranslatedTextItem))
    (inputs : List String) :
    (mainBody ⟨Except.ok catalog, f⟩ inputs).1 =
      (Event.printed (countLine catalog.length) :: Event.printed docLine ::
        Event.printed instrLine :: sessionTail f catalog inputs)
    ∧ (mainBody ⟨Except.ok catalog, f⟩ inputs).1.count
        (Event.printed (countLine catalog.length)) = 1
    ∧ (mainBody ⟨Except.ok catalog, f⟩ inputs).1.count (Event.printed docLine) = 1
    ∧ (mainBody ⟨Except.ok catalog, f⟩ inputs).1.count (Event.printed instrLine) = 1 := by
  have hmb := mainBody_ok catalog f inputs
  have hzero : ∀ x : Event,
      (∀ ev ∈ sessionTail f catalog inputs, ev ≠ x) →
      (sessionTail f catalog inputs).count x = 0 := by
    intro x hx
    exact List.count_eq_zero.mpr fun hmem => hx x hmem rfl
  have h1 : (sessionTail f catalog inputs).count
      (Event.printed (countLine catalog.length)) = 0 :=
    hzero _ fun ev hev =>
      (sessionTail_no_banner catalog f inputs catalog.length ev hev).1
  have h2 : (sessionTail f catalog inputs).count (Event.printed docLine) = 0 :=
    hzero _ fun ev hev =>
      (sessionTail_no_banner catalog f inputs catalog.length ev hev).2.1
  have h3 : (sessionTail f catalog inputs).count (Event.printed instrLine) = 0 :=
    hzero _ fun ev hev =>
      (sessionTail_no_banner catalog f inputs catalog.length ev hev).2.2
  have hcd := countLine_ne_docLine catalog.length
  have hci := countLine_ne_instrLine catalog.length
  have hdi := docLine_ne_instrLine
  refine ⟨hmb, ?_, ?_, ?_⟩ <;>
    rw [hmb, List.count_append] <;>
    simp [bannerEvents, List.count_cons, h1, h2, h3, hcd, hci, hdi,
      hcd.symm, hci.symm, hdi.symm]

end TranslateApp

section Sanity
open TranslateApp

example : transLoop emptyTranslate "en" ["quit"] "" = ([Event.printed promptStr], none) := by
  decide

example : transLoop emptyTranslate "en" ["QUIT"] "" =
    ([Event.printed promptStr, Event.translateCall ["QUIT"] ["en"]], none) := by
  decide

example : selectLanguage [("en", "English")] ["xx", "en"] =
    ([Event.printed ("xx" ++ rejSuffix)], Except.ok ("en", [])) := rfl

end Sanity
